import Mathlib

/-!
Verification of the non-LiDAR point-cloud-to-mesh reconstruction pipeline of
the `react-native-ar` repository, shallowly embedded from the Swift sources
(`ARView.swift`, in both its raycast variant and its feature-point variant).

Floating-point arithmetic of the source is modelled by exact rational
arithmetic (`ℚ`); square-root comparisons of the source are expressed by the
equivalent comparisons of squares, which are exact over `ℚ`.  The shape
classifier, whose branch condition genuinely depends on a mean of square
roots, is embedded over `ℝ`.

The file is organised as: all definitions first, then all theorems.
-/

set_option maxRecDepth 200000

/-! ### Data model -/

/-- A 3D world-space point, `SIMD3<Float>` in the source, with exact
coordinates. -/
structure Vec3 where
  x : ℚ
  y : ℚ
  z : ℚ
deriving DecidableEq, Repr, Inhabited

namespace Vec3

def add (a b : Vec3) : Vec3 := ⟨a.x + b.x, a.y + b.y, a.z + b.z⟩

def sub (a b : Vec3) : Vec3 := ⟨a.x - b.x, a.y - b.y, a.z - b.z⟩

def neg (a : Vec3) : Vec3 := ⟨-a.x, -a.y, -a.z⟩

def smul (q : ℚ) (a : Vec3) : Vec3 := ⟨q * a.x, q * a.y, q * a.z⟩

/-- Dot product of two vectors. -/
def dot (a b : Vec3) : ℚ := a.x * b.x + a.y * b.y + a.z * b.z

/-- Cross product, as used by the source for triangle normals. -/
def cross (a b : Vec3) : Vec3 :=
  ⟨a.y * b.z - a.z * b.y, a.z * b.x - a.x * b.z, a.x * b.y - a.y * b.x⟩

/-- Squared Euclidean norm; `length(v)^2` in the source. -/
def sqNorm (a : Vec3) : ℚ := dot a a

end Vec3

instance : Add Vec3 := ⟨Vec3.add⟩
instance : Sub Vec3 := ⟨Vec3.sub⟩
instance : Neg Vec3 := ⟨Vec3.neg⟩

/-- Squared Euclidean distance; `simd_distance(a, b)^2` in the source.  The
source compares distances against positive constants, which is equivalent to
comparing this square against the squared constant. -/
def sqDist (a b : Vec3) : ℚ := Vec3.sqNorm (a - b)

/-- A raycast sample: a world position together with its surface normal, the
`(position: SIMD3<Float>, normal: SIMD3<Float>)` tuples of the source. -/
structure PointSample where
  position : Vec3
  normal : Vec3
deriving DecidableEq, Repr, Inhabited

/-- A face index triple (one `[Int]` entry of the `faces` array). -/
def Face : Type := ℕ × ℕ × ℕ

instance : DecidableEq Face := by
  unfold Face
  infer_instance

/-- A produced mesh: the `"vertices"` and `"faces"` entries of the scan-data
dictionary. -/
structure Mesh where
  vertices : List Vec3
  faces : List Face
deriving DecidableEq

/-! ### Point accumulator

`session(_:didUpdate:)` appends each accepted batch to `accumulatedPoints`
and then evicts from the front down to the cap:

raycast variant (cap 2000):
```
accumulatedPoints.append(contentsOf: raycastPoints.map { $0.position })
if accumulatedPoints.count > 2000 {
  let removeCount = accumulatedPoints.count - 2000
  accumulatedPoints.removeFirst(removeCount)
}
```
feature-point variant (cap 8000):
```
accumulatedPoints.append(contentsOf: sampledPoints)
if accumulatedPoints.count > 8000 {
  accumulatedPoints.removeFirst(accumulatedPoints.count - 8000)
}
```
-/

/-- One `accept` call of the point accumulator: append the batch, then drop
from the front whatever exceeds the cap. -/
def accept (maxPoints : ℕ) (cloud batch : List Vec3) : List Vec3 :=
  let appended := cloud ++ batch
  if maxPoints < appended.length then
    appended.drop (appended.length - maxPoints)
  else
    appended

/-- The accumulator state after a sequence of accepted batches, starting from
the empty cloud. -/
def runAccepts (maxPoints : ℕ) (batches : List (List Vec3)) : List Vec3 :=
  batches.foldl (accept maxPoints) []

/-- The most recent `m` elements (or all of them if fewer) of a list, in
their original relative order: the spec-side description of the retained
sliding window. -/
def lastWindow (m : ℕ) (l : List α) : List α := l.drop (l.length - m)

/-! ### Outlier filter

`filterOutliers` of the raycast variant:
```
guard points.count > 3 else { return points }
var densityScores: [Int] = Array(repeating: 0, count: points.count)
let neighborRadius: Float = 0.15
for i in 0..<points.count {
  for j in 0..<points.count {
    if i != j {
      let distance = simd_distance(points[i].position, points[j].position)
      if distance < neighborRadius { densityScores[i] += 1 }
    }
  }
}
let sortedScores = densityScores.sorted()
let medianScore = sortedScores[sortedScores.count / 2]
let threshold = max(2, Int(Float(medianScore) * 0.3))
var filtered = ...
for i in 0..<points.count {
  if densityScores[i] >= threshold { filtered.append(points[i]) }
}
return filtered.isEmpty ? points : filtered
```
`Int(Float(medianScore) * 0.3)` truncates toward zero; for a natural-number
median under exact arithmetic this is `(3 * medianScore) / 10` in `ℕ`.
-/

/-- Insertion step of the sorting model for Swift `sorted()` / `sort`. -/
def insertBy (le : α → α → Bool) (a : α) : List α → List α
  | [] => [a]
  | b :: bs => if le a b then a :: b :: bs else b :: insertBy le a bs

/-- Sorting model for Swift `sorted()` / `sort` (insertion sort; the source
does not depend on how ties are broken). -/
def sortBy (le : α → α → Bool) : List α → List α
  | [] => []
  | a :: as => insertBy le a (sortBy le as)

/-- Source symbol `neighborRadius` of `filterOutliers` (15 cm). -/
def neighborRadius : ℚ := 15/100

/-- The density score of point `i`: how many other input points lie strictly
within `neighborRadius` of it (the inner loop of `filterOutliers`). -/
def densityScore (points : List PointSample) (i : ℕ) : ℕ :=
  ((List.range points.length).filter (fun j =>
    decide (i ≠ j) &&
      decide (sqDist (points.getD i default).position (points.getD j default).position
        < neighborRadius * neighborRadius))).length

/-- The median density score: entry `count / 2` of the ascending-sorted score
list, exactly as `sortedScores[sortedScores.count / 2]` reads it. -/
def medianScore (points : List PointSample) : ℕ :=
  let sortedScores := sortBy (fun a b => decide (a ≤ b))
    ((List.range points.length).map (densityScore points))
  sortedScores.getD (sortedScores.length / 2) 0

/-- The keep threshold `max(2, Int(Float(medianScore) * 0.3))` of
`filterOutliers`. -/
def keepThreshold (points : List PointSample) : ℕ :=
  max 2 ((3 * medianScore points) / 10)

/-- The list of points whose density score meets the keep threshold, in input
order (the `filtered` accumulation loop of `filterOutliers`). -/
def keptPoints (points : List PointSample) : List PointSample :=
  (List.range points.length).filterMap (fun i =>
    if keepThreshold points ≤ densityScore points i then
      some (points.getD i default)
    else none)

/-- The outlier filter of the raycast variant. -/
def filterOutliers (points : List PointSample) : List PointSample :=
  if points.length ≤ 3 then points
  else
    let filtered := keptPoints points
    if filtered.isEmpty then points else filtered

/-- Modelled from the claim wording: the filter the spec describes, whose
threshold uses rounding (`round(0.3 × median)`) instead of the truncation the
code performs.  Kept separate so the claim can be compared against
`filterOutliers`. -/
def specRoundKept (points : List PointSample) : List PointSample :=
  (List.range points.length).filterMap (fun i =>
    if (max 2 (round ((3 : ℚ)/10 * medianScore points)) : ℤ)
        ≤ (densityScore points i : ℤ) then
      some (points.getD i default)
    else none)

/-- The 13-sample input used to separate truncation from rounding: ten
clustered samples of score 9 each and three clustered samples of score 2
each, so the median score is 9 and the code threshold is
`max(2, trunc(2.7)) = 2` while the claimed threshold is
`max(2, round(2.7)) = 3`. -/
def pts13 : List PointSample :=
  ((List.range 10).map (fun i => ⟨⟨(i : ℚ)/100, 0, 0⟩, ⟨0, 1, 0⟩⟩)) ++
    ((List.range 3).map (fun i => ⟨⟨10 + (i : ℚ)/100, 0, 0⟩, ⟨0, 1, 0⟩⟩))

/-- Five samples pairwise 1 m apart: every point is isolated. -/
def isolated5 : List PointSample :=
  (List.range 5).map (fun i => ⟨⟨(i : ℚ), 0, 0⟩, ⟨0, 1, 0⟩⟩)

/-! ### Normal estimator

`calculateVertexNormals(for:)` of the raycast variant:
```
if pointNormals.count == points.count { return pointNormals }
guard points.count >= 3 else { return points.map { _ in SIMD3<Float>(0, 1, 0) } }
let searchRadius: Float = 0.05
for (index, point) in points.enumerated() {
  var neighbors = ...
  for (i, otherPoint) in points.enumerated() {
    guard i != index else { continue }
    let distance = simd_distance(point, otherPoint)
    if distance < searchRadius && neighbors.count < 6 { neighbors.append(otherPoint) }
  }
  if neighbors.count >= 2 {
    let v1 = normalize(neighbors[0] - point)
    let v2 = normalize(neighbors[min(1, neighbors.count - 1)] - point)
    let normal = normalize(cross(v1, v2))
    let correctedNormal = normal.y < 0 ? -normal : normal
    normals.append(correctedNormal)
  } else {
    normals.append(SIMD3<Float>(0, 1, 0))
  }
}
```
The three `normalize` calls rescale by positive factors only, so the
recomputed normal is modelled up to positive scale (a degenerate zero cross
product stays the zero vector); the sign of the vertical component and the
`(0, 1, 0)` defaults, which the claims are about, are unaffected.
-/

/-- Source symbol `searchRadius` of `calculateVertexNormals` (5 cm). -/
def searchRadius : ℚ := 5/100

/-- All other indices strictly within `searchRadius` of point `index`, in
index order. -/
def normalNeighborAll (points : List Vec3) (index : ℕ) : List ℕ :=
  (List.range points.length).filter (fun i =>
    decide (i ≠ index) &&
      decide (sqDist (points.getD index default) (points.getD i default)
        < searchRadius * searchRadius))

/-- The gathered neighbor list: the source appends in-radius points only
while fewer than 6 have been gathered, i.e. the first up to 6 of
`normalNeighborAll`. -/
def normalNeighbors (points : List Vec3) (index : ℕ) : List ℕ :=
  (normalNeighborAll points index).take 6

/-- One recomputed normal (up to positive scale, see above). -/
def computedNormal (points : List Vec3) (index : ℕ) : Vec3 :=
  let neighbors := normalNeighbors points index
  if 2 ≤ neighbors.length then
    let point := points.getD index default
    let v1 := points.getD (neighbors.getD 0 0) default - point
    let v2 := points.getD (neighbors.getD (min 1 (neighbors.length - 1)) 0) default - point
    let normal := Vec3.cross v1 v2
    if normal.y < 0 then -normal else normal
  else ⟨0, 1, 0⟩

/-- Source symbol `calculateVertexNormals(for:)`: stored raycast normals are preferred when
they match the point count; otherwise normals are recomputed. -/
def calculateVertexNormals (pointNormals : List Vec3) (points : List Vec3) :
    List Vec3 :=
  if pointNormals.length = points.length then pointNormals
  else if points.length < 3 then points.map (fun _ => ⟨0, 1, 0⟩)
  else (List.range points.length).map (computedNormal points)

/-! ### Mesh triangulators

`generateSimpleTriangulation` (pose-less fallback) and
`generateMeshFromPoints` (pose-aware 2.5D mode) of the raycast variant.
The source compares Euclidean distances and the triangle area against
positive constants; these are modelled by the equivalent squared
comparisons.  For the pose-aware projection, the source builds the
orthonormal basis `right`, `adjustedUp` orthogonal to the unit view
direction `n̂ = V/‖V‖` (with `V` the summed per-point viewing direction),
so for any difference vector `d` of two points:
`depth difference = ⟨d, n̂⟩` and `dist2D² = ‖d‖² − ⟨d, n̂⟩²`,
with `⟨d, n̂⟩² = ⟨d, V⟩²/‖V‖²` — rational in the inputs.
-/

/-- Source symbol `maxDistance` of the fallback triangulation (10 cm). -/
def fallbackMaxDistance : ℚ := 1/10

/-- The `nearby` list of `generateSimpleTriangulation` for index `i`: pairs
`(j, squared distance)` over `j > i` strictly within `maxDistance`, sorted
ascending by distance (the source sorts by the distance itself; the square
orders identically). -/
def simpleNearby (points : List Vec3) (i : ℕ) : List (ℕ × ℚ) :=
  sortBy (fun a b => decide (a.2 ≤ b.2))
    ((List.range' (i + 1) (points.length - (i + 1))).filterMap (fun j =>
      let d := sqDist (points.getD i default) (points.getD j default)
      if d < fallbackMaxDistance * fallbackMaxDistance then some (j, d) else none))

/-- One candidate triangle of the fallback mode: accepted when the third
edge is within `maxDistance` and the area clears `0.0001`
(`area = ‖cross‖/2 > 0.0001  ⟺  ‖cross‖² > (2·0.0001)²`). -/
def simpleCandidate (points : List Vec3) (i idx2 idx3 : ℕ) : Option Face :=
  if sqDist (points.getD idx2 default) (points.getD idx3 default)
      < fallbackMaxDistance * fallbackMaxDistance then
    let v1 := points.getD idx2 default - points.getD i default
    let v2 := points.getD idx3 default - points.getD i default
    if (2/10000 : ℚ) * (2/10000) < Vec3.sqNorm (Vec3.cross v1 v2) then
      some (i, idx2, idx3)
    else none
  else none

/-- The pose-less fallback triangulation: for each of the first
`min(count, 200)` points, triangles from the nearest 4/6 in-radius later
points. -/
def generateSimpleTriangulation (points : List Vec3) : List Face :=
  (List.range (min points.length 200)).flatMap (fun i =>
    let nearby := simpleNearby points i
    (List.range (min nearby.length 4)).flatMap (fun j =>
      (List.range' (j + 1) (min nearby.length 6 - (j + 1))).filterMap (fun k =>
        simpleCandidate points i (nearby.getD j (0, 0)).1 (nearby.getD k (0, 0)).1)))

/-- The two columns of the `simd_float4x4` camera transform read by
`generateMeshFromPoints`: column 2 (camera-space Z axis) and column 3 (the
camera position). -/
structure CameraTransform where
  column2 : Vec3
  column3 : Vec3
deriving DecidableEq, Repr, Inhabited

/-- The summed per-point viewing direction (`viewDir = -columns.2` summed
over all transforms); the source's `avgViewDir` before normalization, which
rescales by a positive factor only. -/
def viewDirSum (transforms : List CameraTransform) : Vec3 :=
  transforms.foldl (fun acc t => acc + (-t.column2)) ⟨0, 0, 0⟩

/-- Source symbol `avgCameraPos`: the mean of the camera positions (`columns.3`). -/
def avgCameraPos (transforms : List CameraTransform) : Vec3 :=
  Vec3.smul (1 / (transforms.length : ℚ))
    (transforms.foldl (fun acc t => acc + t.column3) ⟨0, 0, 0⟩)

/-- Squared depth difference of `a`, `b` along the unnormalized view
direction `V`: `(depth_b − depth_a)² = ⟨b−a, V⟩²/‖V‖²`. -/
def sqDepthDiff (V a b : Vec3) : ℚ :=
  Vec3.dot (b - a) V * Vec3.dot (b - a) V / Vec3.sqNorm V

/-- Squared projected 2D distance of `a`, `b`:
`dist2D² = ‖b−a‖² − (depth difference)²` in the orthonormal projection
basis. -/
def sqDist2D (V a b : Vec3) : ℚ := sqDist a b - sqDepthDiff V a b

/-- Source symbol `maxEdgeLength2D` (12 cm in projected space). -/
def maxEdgeLength2D : ℚ := 12/100

/-- Source symbol `maxDepthDiff` (15 cm allowed depth difference). -/
def maxDepthDiff : ℚ := 15/100

/-- The absolute 3D edge cap (0.15) of the pose-aware triangle guard. -/
def maxEdgeLength3D : ℚ := 15/100

/-- The neighbor candidates of point `i` in the pose-aware mode: all other
indices within `maxEdgeLength2D` in projection and within `maxDepthDiff` in
depth, sorted ascending by 2D distance. -/
def poseNeighbors (points : List Vec3) (V : Vec3) (i : ℕ) : List ℕ :=
  sortBy (fun a b =>
      decide (sqDist2D V (points.getD i default) (points.getD a default)
        ≤ sqDist2D V (points.getD i default) (points.getD b default)))
    ((List.range points.length).filter (fun j =>
      decide (i ≠ j) &&
        decide (sqDist2D V (points.getD i default) (points.getD j default)
          < maxEdgeLength2D * maxEdgeLength2D) &&
        decide (sqDepthDiff V (points.getD i default) (points.getD j default)
          < maxDepthDiff * maxDepthDiff)))

/-- One candidate triangle `(i, idx2, idx3)` of the pose-aware mode: the
2–3 edge under `maxEdgeLength2D` in projection, all three 3D edges under
0.15, 3D area above 0.0002 (`‖cross‖² > (2·0.0002)²`), then the winding is
flipped unless the face normal points toward the average camera position —
`dot(normalize(cross), normalize(camPos − centroid)) > 0` has the same truth
value as `0 < ⟨cross, camPos − centroid⟩` (for `camPos = centroid` the
source's NaN comparison is false and ours is too). -/
def poseCandidate (points : List Vec3) (V camPos : Vec3) (i idx2 idx3 : ℕ) :
    Option Face :=
  let point1 := points.getD i default
  let point2 := points.getD idx2 default
  let point3 := points.getD idx3 default
  if sqDist2D V point2 point3 < maxEdgeLength2D * maxEdgeLength2D ∧
      sqDist point1 point2 < maxEdgeLength3D * maxEdgeLength3D ∧
      sqDist point2 point3 < maxEdgeLength3D * maxEdgeLength3D ∧
      sqDist point3 point1 < maxEdgeLength3D * maxEdgeLength3D then
    let crossProd := Vec3.cross (point2 - point1) (point3 - point1)
    if (4/10000 : ℚ) * (4/10000) < Vec3.sqNorm crossProd then
      let triangleCenter := Vec3.smul (1/3) (point1 + point2 + point3)
      if 0 < Vec3.dot crossProd (camPos - triangleCenter) then
        some (i, idx2, idx3)
      else
        some (i, idx3, idx2)
    else none
  else none

/-- The faces emitted by the pose-aware mode before the total cap: for each
`i`, pairs among the nearest candidate neighbors (`j < min(count, 6)`,
`j < k < min(count, 10)`). -/
def poseFacesUncapped (points : List Vec3) (V camPos : Vec3) : List Face :=
  (List.range points.length).flatMap (fun i =>
    let neighbors := poseNeighbors points V i
    (List.range (min neighbors.length 6)).flatMap (fun j =>
      (List.range' (j + 1) (min neighbors.length 10 - (j + 1))).filterMap (fun k =>
        poseCandidate points V camPos i (neighbors.getD j 0) (neighbors.getD k 0))))

/-- Source symbol `generateMeshFromPoints`: fewer than 3 points emits no faces; without
one camera transform per point it falls back to the simple triangulation;
otherwise the pose-aware mode runs.  When the summed viewing direction has
no horizontal component (`V.x = V.z = 0`, including `V = 0`), the source's
`normalize(cross(avgViewDir, up))` is NaN, every comparison against the NaN
projected coordinates is false, and no face is emitted.  The early return at
`faces.count >= points.count * 4` truncates the emission order to its first
`4 × count` faces. -/
def generateMeshFromPoints (points : List Vec3)
    (pointCameraTransforms : List CameraTransform) : List Face :=
  if points.length < 3 then []
  else if pointCameraTransforms.length ≠ points.length then
    generateSimpleTriangulation points
  else
    let V := viewDirSum pointCameraTransforms
    if V.x = 0 ∧ V.z = 0 then []
    else
      (poseFacesUncapped points V (avgCameraPos pointCameraTransforms)).take
        (points.length * 4)

/-! ### Feature-point scan data (stride-based simple triangulation)

Raycast variant (guarded):
```
guard accumulatedPoints.count >= 3 else { return ...faces: [] }
let strideValue = max(1, accumulatedPoints.count / 1000)
let upperBound = accumulatedPoints.count - 2 * strideValue
if upperBound > strideValue {
  for i in stride(from: strideValue, to: min(upperBound, 1000), by: strideValue) {
    if i + 2 * strideValue < accumulatedPoints.count {
      faces.append([i, i + strideValue, i + 2 * strideValue])
    }
  }
}
```
Feature-point variant (unguarded):
```
let stride = max(1, accumulatedPoints.count / 1000)
for i in stride..<min(accumulatedPoints.count - 2 * stride, 1000) where i % stride == 0 {
  faces.append([i, i + stride, i + 2 * stride])
}
```
The Swift range `a..<b` traps at runtime when `b < a`, which happens in the
unguarded variant for clouds of 1 or 2 points; the trap is modelled as
`none`.
-/

/-- Swift `stride(from: s, to: t, by: s)` for `s ≥ 1`: the multiples of `s`
starting at `s` and strictly below `t`. -/
def strideList (s t : ℕ) : List ℕ :=
  (List.range ((t - s + (s - 1)) / s)).map (fun q => s + q * s)

/-- Source symbol `generateFeaturePointScanData` of the raycast variant (vertices and
faces of the returned dictionary). -/
def generateFeaturePointScanData (accumulatedPoints : List Vec3) : Mesh :=
  if accumulatedPoints.isEmpty then ⟨[], []⟩
  else if accumulatedPoints.length < 3 then ⟨accumulatedPoints, []⟩
  else
    let n := accumulatedPoints.length
    let strideValue := max 1 (n / 1000)
    let upperBound := n - 2 * strideValue
    let faces :=
      if strideValue < upperBound then
        (strideList strideValue (min upperBound 1000)).filterMap (fun i =>
          if i + 2 * strideValue < n then
            some (i, i + strideValue, i + 2 * strideValue)
          else none)
      else []
    ⟨accumulatedPoints, faces⟩

/-- Source symbol `generateFeaturePointScanData` of the feature-point variant; `none`
models the runtime trap of the invalid range. -/
def generateFeaturePointScanDataIos (accumulatedPoints : List Vec3) :
    Option Mesh :=
  if accumulatedPoints.isEmpty then some ⟨[], []⟩
  else
    let n := accumulatedPoints.length
    let strideVal := max 1 (n / 1000)
    let b : ℤ := min ((n : ℤ) - 2 * (strideVal : ℤ)) 1000
    if b < (strideVal : ℤ) then none
    else
      some ⟨accumulatedPoints,
        ((List.range' strideVal (b.toNat - strideVal)).filter
            (fun i => decide (i % strideVal = 0))).map
          (fun i => (i, i + strideVal, i + 2 * strideVal))⟩

/-- A face triple whose three indices all address existing vertices. -/
def faceInRange (n : ℕ) (f : Face) : Prop := f.1 < n ∧ f.2.1 < n ∧ f.2.2 < n

/-- Concrete right triangle (5 cm legs) used to exercise the triangulators. -/
def tri3 : List Vec3 := [⟨0, 0, 0⟩, ⟨1/20, 0, 0⟩, ⟨0, 1/20, 0⟩]

/-- The four points exercising both normal-estimator branches: three close
points (5 cm scale) and one isolated far point. -/
def pts4 : List Vec3 := [⟨0, 0, 0⟩, ⟨1/50, 0, 0⟩, ⟨0, 1/50, 0⟩, ⟨10, 10, 10⟩]

/-- Three identical camera transforms looking along `-z` from `(0, 0, 1)`. -/
def tfs3 : List CameraTransform :=
  [⟨⟨0, 0, 1⟩, ⟨0, 0, 1⟩⟩, ⟨⟨0, 0, 1⟩, ⟨0, 0, 1⟩⟩, ⟨⟨0, 0, 1⟩, ⟨0, 0, 1⟩⟩]

/-! ### Shape-detection clustering

`clusterPoints(_:maxDistance:)` (identical in both variants):
```
while !unprocessed.isEmpty {
  var cluster: [SIMD3<Float>] = []
  var toProcess = [unprocessed.removeFirst()]
  while !toProcess.isEmpty {
    let point = toProcess.removeFirst()
    cluster.append(point)
    var i = 0
    while i < unprocessed.count {
      if distance(point, unprocessed[i]) < maxDistance {
        toProcess.append(unprocessed.remove(at: i))
      } else { i += 1 }
    }
    if cluster.count > 500 { break }
  }
  if cluster.count > 50 { clusters.append(cluster) }
  if clusters.count >= 5 { break }
}
```
The two `while` loops are modelled by structural recursion on an explicit
fuel that the callers set to the loops' termination measures
(`toProcess.length + unprocessed.length`, which decreases by one per inner
iteration, and `points.length` for the outer loop), so the fuel-exhausted
branches are unreachable; `innerFloodFill_fuel_irrelevant` and
`outerClusters_fuel_irrelevant` prove the results do not depend on the fuel
beyond the measure.
-/

/-- The inner flood-fill loop: pop a point into the cluster, move the
unprocessed points within `maxDistance` of it into the work list (a stable
partition, as the index scan of the source preserves order), and stop once
the cluster exceeds 500 points (dropping the pending work list, exactly as
the source's `break` does). -/
def innerFloodFill (maxDistance : ℚ) :
    ℕ → List Vec3 → List Vec3 → List Vec3 → List Vec3 × List Vec3
  | 0, cluster, _, unprocessed => (cluster, unprocessed)
  | fuel + 1, cluster, toProcess, unprocessed =>
    match toProcess with
    | [] => (cluster, unprocessed)
    | point :: rest =>
      let cluster2 := cluster ++ [point]
      let near := unprocessed.filter
        (fun p => decide (sqDist point p < maxDistance * maxDistance))
      let far := unprocessed.filter
        (fun p => !decide (sqDist point p < maxDistance * maxDistance))
      if 500 < cluster2.length then (cluster2, far)
      else innerFloodFill maxDistance fuel cluster2 (rest ++ near) far

/-- The outer clustering loop: flood-fill from the first unprocessed point,
keep the cluster only when it exceeds 50 points, and stop at 5 clusters. -/
def outerClusters (maxDistance : ℚ) :
    ℕ → List (List Vec3) → List Vec3 → List (List Vec3)
  | 0, clusters, _ => clusters
  | fuel + 1, clusters, unprocessed =>
    match unprocessed with
    | [] => clusters
    | first :: rest =>
      let r := innerFloodFill maxDistance (1 + rest.length) [] [first] rest
      let clusters2 := if 50 < r.1.length then clusters ++ [r.1] else clusters
      if 5 ≤ clusters2.length then clusters2
      else outerClusters maxDistance fuel clusters2 r.2

/-- Source symbol `clusterPoints(_:maxDistance:)`. -/
def clusterPoints (points : List Vec3) (maxDistance : ℚ) : List (List Vec3) :=
  outerClusters maxDistance points.length [] points

/-- 51 coincident points: a single flood-fill cluster just above the
50-point floor. -/
def dense51 : List Vec3 := List.replicate 51 ⟨0, 0, 0⟩

/-! ### Shape classifier

`analyzeClusterForShape(_:)` (identical in both variants).  The bounding
box, size gates, center, and aspect are exact rational computations; the
circularity score is a mean/deviation of Euclidean distances (sums of
square roots), so that part is embedded over `ℝ` and the definitions
touching it are noncomputable — exactly the part of the code whose value
genuinely lives in `ℝ`.  The classification `if` on the `ℝ`-valued score
uses the classical decidability instance; every rejection path is decided
by the rational gates alone.
-/

/-- Componentwise `min` (`simd.min`). -/
def vmin (a b : Vec3) : Vec3 := ⟨min a.x b.x, min a.y b.y, min a.z b.z⟩

/-- Componentwise `max` (`simd.max`). -/
def vmax (a b : Vec3) : Vec3 := ⟨max a.x b.x, max a.y b.y, max a.z b.z⟩

/-- Source symbol `minPoint`: starts at `cluster[0]` and folds `min` over every point
(the first point is absorbed twice, which is idempotent).  The `headD`
default is never consulted under the 30-point gate. -/
def bboxMin (cluster : List Vec3) : Vec3 :=
  cluster.foldl vmin (cluster.headD ⟨0, 0, 0⟩)

/-- Source symbol `maxPoint`. -/
def bboxMax (cluster : List Vec3) : Vec3 :=
  cluster.foldl vmax (cluster.headD ⟨0, 0, 0⟩)

/-- Source symbol `width = size.x` with `size = maxPoint - minPoint`. -/
def clusterWidth (cluster : List Vec3) : ℚ := (bboxMax cluster - bboxMin cluster).x

/-- Source symbol `depth = size.z`. -/
def clusterDepth (cluster : List Vec3) : ℚ := (bboxMax cluster - bboxMin cluster).z

/-- Source symbol `center = (minPoint + maxPoint) / 2`. -/
def clusterCenter (cluster : List Vec3) : Vec3 :=
  Vec3.smul (1/2) (bboxMin cluster + bboxMax cluster)

/-- The horizontal (X-Z plane) distances of the points from the box center:
`sqrt(dx*dx + dz*dz)` per point. -/
noncomputable def clusterDistances (cluster : List Vec3) : List ℝ :=
  cluster.map (fun p =>
    Real.sqrt (((p.x - (clusterCenter cluster).x) * (p.x - (clusterCenter cluster).x)
      + (p.z - (clusterCenter cluster).z) * (p.z - (clusterCenter cluster).z) : ℚ) : ℝ))

/-- Source symbol `avgDistance = distances.reduce(0, +) / Float(distances.count)`. -/
noncomputable def avgDistance (cluster : List Vec3) : ℝ :=
  (clusterDistances cluster).sum / ((clusterDistances cluster).length : ℝ)

/-- Source symbol `variance = distances.map { pow($0 - avgDistance, 2) }.reduce(0, +) / count`. -/
noncomputable def clusterVariance (cluster : List Vec3) : ℝ :=
  ((clusterDistances cluster).map (fun d => (d - avgDistance cluster) ^ 2)).sum
    / ((clusterDistances cluster).length : ℝ)

/-- Source symbol `circularity = standardDeviation / avgDistance`. -/
noncomputable def circularityOf (cluster : List Vec3) : ℝ :=
  Real.sqrt (clusterVariance cluster) / avgDistance cluster

/-- The bounding-box aspect `max(width, depth) / min(width, depth)`. -/
def aspectOf (cluster : List Vec3) : ℚ :=
  max (clusterWidth cluster) (clusterDepth cluster)
    / min (clusterWidth cluster) (clusterDepth cluster)

section ShapeClassifier

open scoped Classical

/-- Source symbol `analyzeClusterForShape(_:)`: `none` models the `nil` returns of the
30-point gate and the 0.2 m–3 m size gate; otherwise the label and the
bounding box of the classified cluster. -/
noncomputable def analyzeClusterForShape (cluster : List Vec3) :
    Option (String × Vec3 × Vec3) :=
  if cluster.length < 30 then none
  else if 1/5 < clusterWidth cluster ∧ clusterWidth cluster < 3 ∧
      1/5 < clusterDepth cluster ∧ clusterDepth cluster < 3 then
    if circularityOf cluster < (1/4 : ℝ) ∧ aspectOf cluster < 13/10 then
      some ("CIRCLE", bboxMin cluster, bboxMax cluster)
    else if aspectOf cluster < 2 then
      some ("RECTANGLE", bboxMin cluster, bboxMax cluster)
    else if 2 ≤ aspectOf cluster then
      some ("RECTANGLE", bboxMin cluster, bboxMax cluster)
    else none
  else none

end ShapeClassifier

/-- A 30-point cluster whose bounding box has width exactly 0.2 (the
boundary the claim's closed interval `[0.2, 3.0]` admits but the code's
strict `width > 0.2` gate rejects). -/
def boundary30 : List Vec3 :=
  ⟨0, 0, 0⟩ :: ⟨1/5, 0, 1/2⟩ :: List.replicate 28 ⟨1/10, 0, 1/4⟩

/-- 30 points on the circle of radius 1/2 around the origin in the X-Z
plane (12 distinct rational points, the first repeated to reach the
30-point gate): every horizontal distance from the box center is exactly
1/2. -/
def circle30 : List Vec3 :=
  List.replicate 19 ⟨1/2, 0, 0⟩ ++
    [⟨-(1/2), 0, 0⟩, ⟨0, 0, 1/2⟩, ⟨0, 0, -(1/2)⟩,
      ⟨3/10, 0, 2/5⟩, ⟨3/10, 0, -(2/5)⟩, ⟨-(3/10), 0, 2/5⟩, ⟨-(3/10), 0, -(2/5)⟩,
      ⟨2/5, 0, 3/10⟩, ⟨2/5, 0, -(3/10)⟩, ⟨-(2/5), 0, 3/10⟩, ⟨-(2/5), 0, -(3/10)⟩]

/-! ## Theorems -/

theorem accept_eq_lastWindow (m : ℕ) (cloud batch : List Vec3) :
    accept m cloud batch = lastWindow m (cloud ++ batch) := by
  simp only [accept, lastWindow]
  by_cases h : m < (cloud ++ batch).length
  · rw [if_pos h]
  · rw [if_neg h]
    have h0 : (cloud ++ batch).length - m = 0 := by omega
    rw [h0, List.drop_zero]

theorem length_lastWindow (m : ℕ) (l : List α) :
    (lastWindow m l).length = min m l.length := by
  simp [lastWindow]
  omega

theorem lastWindow_append_right (m : ℕ) (zs ys : List α) (h : m ≤ ys.length) :
    lastWindow m (zs ++ ys) = lastWindow m ys := by
  unfold lastWindow
  have e : (zs ++ ys).length - m = zs.length + (ys.length - m) := by
    simp
    omega
  rw [e, List.drop_append]

theorem lastWindow_append_left (m : ℕ) (zs ys : List α) (h : ys.length ≤ m) :
    lastWindow m (zs ++ ys) = lastWindow (m - ys.length) zs ++ ys := by
  unfold lastWindow
  rw [List.drop_append_eq_append_drop]
  have e1 : (zs ++ ys).length - m = zs.length - (m - ys.length) := by
    simp
    omega
  rw [e1]
  have e2 : zs.length - (m - ys.length) - zs.length = 0 := by omega
  rw [e2, List.drop_zero]

theorem lastWindow_lastWindow (k m : ℕ) (xs : List α) (h : k ≤ m) :
    lastWindow k (lastWindow m xs) = lastWindow k xs := by
  unfold lastWindow
  rw [List.drop_drop]
  congr 1
  simp
  omega

theorem lastWindow_append (m : ℕ) (xs ys : List α) :
    lastWindow m (lastWindow m xs ++ ys) = lastWindow m (xs ++ ys) := by
  rcases le_or_lt m ys.length with h | h
  · rw [lastWindow_append_right m _ ys h, lastWindow_append_right m _ ys h]
  · rw [lastWindow_append_left m _ ys (by omega), lastWindow_append_left m _ ys (by omega),
      lastWindow_lastWindow _ _ _ (by omega)]

theorem runAccepts_from (m : ℕ) (batches : List (List Vec3)) (xs : List Vec3) :
    batches.foldl (accept m) (lastWindow m xs)
      = lastWindow m (xs ++ batches.flatten) := by
  induction batches generalizing xs with
  | nil => simp
  | cons b bs ih =>
    simp only [List.foldl_cons, List.flatten_cons]
    rw [accept_eq_lastWindow, lastWindow_append, ih]
    simp [List.append_assoc]

/-- C1: for every cap `m` (instantiated to `2000` in the raycast variant and
`8000` in the feature-point variant of `session(_:didUpdate:)`) and every
sequence of accepted point batches, the accumulated point cloud after the
sequence has length at most `m`, and is exactly the suffix of most recently
added points of the concatenated batch stream in their original relative
order (oldest points evicted first).  Since the batch sequence is universally
quantified, the invariant holds after every `accept` call of a longer run. -/
theorem C1_accumulator_cap_fifo (m : ℕ) (batches : List (List Vec3)) :
    (runAccepts m batches).length ≤ m ∧
      runAccepts m batches = lastWindow m batches.flatten := by
  have h : runAccepts m batches = lastWindow m batches.flatten := by
    have h0 : lastWindow m ([] : List Vec3) = [] := by simp [lastWindow]
    have h1 := runAccepts_from m batches []
    rw [h0] at h1
    simpa [runAccepts] using h1
  refine ⟨?_, h⟩
  rw [h, length_lastWindow]
  omega

theorem Vec3.sub_x (a b : Vec3) : (a - b).x = a.x - b.x := rfl

theorem Vec3.sub_y (a b : Vec3) : (a - b).y = a.y - b.y := rfl

theorem Vec3.sub_z (a b : Vec3) : (a - b).z = a.z - b.z := rfl

theorem sqDist_comm (a b : Vec3) : sqDist a b = sqDist b a := by
  simp only [sqDist, Vec3.sqNorm, Vec3.dot, Vec3.sub_x, Vec3.sub_y, Vec3.sub_z]
  ring

/-- All density scores of in-range points vanish when the points are pairwise
at least `neighborRadius` apart. -/
theorem densityScore_eq_zero_of_isolated (points : List PointSample)
    (h : points.Pairwise (fun a b =>
      neighborRadius * neighborRadius ≤ sqDist a.position b.position))
    (i : ℕ) (hi : i < points.length) : densityScore points i = 0 := by
  unfold densityScore
  rw [List.length_eq_zero, List.filter_eq_nil_iff]
  intro j hj
  rw [List.mem_range] at hj
  simp only [Bool.and_eq_true, decide_eq_true_eq]
  rintro ⟨hne, hlt⟩
  rw [List.pairwise_iff_getElem] at h
  rw [List.getD_eq_getElem points default hi, List.getD_eq_getElem points default hj] at hlt
  rcases Nat.lt_or_ge i j with hij | hij
  · exact absurd hlt (not_lt.mpr (h i j hi hj hij))
  · have hji : j < i := by omega
    rw [sqDist_comm] at hlt
    exact absurd hlt (not_lt.mpr (h j i hj hi hji))

/-- C4: if no point passes the density threshold, `filterOutliers` returns
its input unchanged (fail-open); and whenever all points are pairwise at
least `neighborRadius` apart (which covers "pairwise farther apart than the
neighbor radius"), the output equals the input — never an empty result. -/
theorem C4_filter_fail_open (points : List PointSample) :
    (keptPoints points = [] → filterOutliers points = points) ∧
      (points.Pairwise (fun a b =>
          neighborRadius * neighborRadius ≤ sqDist a.position b.position) →
        filterOutliers points = points) := by
  constructor
  · intro h
    unfold filterOutliers
    split
    · rfl
    · simp [h]
  · intro h
    unfold filterOutliers
    split
    · rfl
    · have hempty : keptPoints points = [] := by
        unfold keptPoints
        rw [List.filterMap_eq_nil_iff]
        intro i hmem
        rw [List.mem_range] at hmem
        rw [densityScore_eq_zero_of_isolated points h i hmem]
        have h2 : ¬ keepThreshold points ≤ 0 := by
          unfold keepThreshold
          omega
        simp [h2]
      simp [hempty]

/-- C4 witness: five samples pairwise 1 m apart pass through the filter
unchanged. -/
theorem C4_filter_fail_open_witness :
    isolated5.Pairwise (fun a b =>
        neighborRadius * neighborRadius ≤ sqDist a.position b.position) ∧
      filterOutliers isolated5 = isolated5 := by
  have hp : isolated5.Pairwise (fun a b =>
      neighborRadius * neighborRadius ≤ sqDist a.position b.position) := by
    with_unfolding_all decide
  exact ⟨hp, (C4_filter_fail_open isolated5).2 hp⟩

/-- C5 counterexample: on `pts13` (median density score 9) the code keeps all
thirteen samples (threshold `max(2, trunc(0.3·9)) = 2`), while the claimed
rounded threshold `max(2, round(0.3·9)) = 3` would drop the three samples of
score 2, so the filter does not keep exactly the points selected by the
claimed rounded threshold. -/
theorem C5_round_threshold_counterexample :
    3 < pts13.length ∧ filterOutliers pts13 ≠ specRoundKept pts13 := by
  constructor
  · with_unfolding_all decide
  · with_unfolding_all decide

/-- C5 (amended): for every input of more than 3 point samples, the outlier
filter keeps exactly those points whose density score (count of other points
strictly within radius 0.15) is at least `max(2, trunc(0.3 × median))` — with
truncation toward zero, not rounding — where the median is entry
`count / 2` of the ascending-sorted score list; except that when no point
qualifies the entire input is returned unchanged (fail-open). -/
theorem C5_filter_threshold_amended (points : List PointSample)
    (h : 3 < points.length) :
    filterOutliers points =
      if (keptPoints points).isEmpty then points else keptPoints points := by
  unfold filterOutliers
  rw [if_neg (by omega)]

/-- C5 witness: the amended description evaluated on the concrete 13-sample
input. -/
theorem C5_filter_threshold_amended_witness :
    3 < pts13.length ∧
      filterOutliers pts13 =
        if (keptPoints pts13).isEmpty then pts13 else keptPoints pts13 :=
  ⟨by with_unfolding_all decide,
    C5_filter_threshold_amended pts13 (by with_unfolding_all decide)⟩

theorem Vec3.eq_iff (a b : Vec3) : a = b ↔ a.x = b.x ∧ a.y = b.y ∧ a.z = b.z := by
  cases a
  cases b
  simp

theorem Vec3.add_x (a b : Vec3) : (a + b).x = a.x + b.x := rfl

theorem Vec3.add_y (a b : Vec3) : (a + b).y = a.y + b.y := rfl

theorem Vec3.add_z (a b : Vec3) : (a + b).z = a.z + b.z := rfl

theorem Vec3.neg_x (a : Vec3) : (-a).x = -a.x := rfl

theorem Vec3.neg_y (a : Vec3) : (-a).y = -a.y := rfl

theorem Vec3.neg_z (a : Vec3) : (-a).z = -a.z := rfl

theorem Vec3.cross_anticomm (u v : Vec3) : Vec3.cross u v = -(Vec3.cross v u) := by
  rw [Vec3.eq_iff]
  refine ⟨?_, ?_, ?_⟩ <;>
    simp only [Vec3.cross, Vec3.neg_x, Vec3.neg_y, Vec3.neg_z] <;> ring

theorem Vec3.dot_neg_left (u v : Vec3) : Vec3.dot (-u) v = -(Vec3.dot u v) := by
  simp only [Vec3.dot, Vec3.neg_x, Vec3.neg_y, Vec3.neg_z]
  ring

theorem Vec3.sqNorm_neg (u : Vec3) : Vec3.sqNorm (-u) = Vec3.sqNorm u := by
  simp only [Vec3.sqNorm, Vec3.dot, Vec3.neg_x, Vec3.neg_y, Vec3.neg_z]
  ring

theorem Vec3.add_rot (a b c : Vec3) : a + b + c = b + c + a := by
  rw [Vec3.eq_iff]
  refine ⟨?_, ?_, ?_⟩ <;> simp only [Vec3.add_x, Vec3.add_y, Vec3.add_z] <;> ring

theorem getD_map_range (f : ℕ → α) [Inhabited α] (n i : ℕ) (h : i < n) :
    ((List.range n).map f).getD i default = f i := by
  rw [List.getD_eq_getElem _ _ (by simpa using h)]
  simp

theorem getD_mem (l : List α) (i : ℕ) (d : α) (h : i < l.length) :
    l.getD i d ∈ l := by
  rw [List.getD_eq_getElem _ _ h]
  exact List.getElem_mem h

/-- C8: the normal estimator `calculateVertexNormals` returns one normal per
input point; on the recompute path (no stored normals of matching count)
every point with fewer than 2 other points strictly within the 0.05 search
radius receives exactly the up-axis unit vector `(0, 1, 0)`, and every
returned normal has a non-negative up-axis (`y`) component. -/
theorem C8_normal_estimator (pointNormals points : List Vec3) :
    (calculateVertexNormals pointNormals points).length = points.length ∧
      (pointNormals.length ≠ points.length →
        (∀ i, i < points.length → (normalNeighborAll points i).length < 2 →
          (calculateVertexNormals pointNormals points).getD i default = ⟨0, 1, 0⟩) ∧
        (∀ v ∈ calculateVertexNormals pointNormals points, 0 ≤ v.y)) := by
  refine ⟨?_, fun hne => ⟨?_, ?_⟩⟩
  · unfold calculateVertexNormals
    split
    · assumption
    · split <;> simp
  · intro i hi hfew
    unfold calculateVertexNormals
    rw [if_neg hne]
    split
    · rw [List.getD_eq_getElem _ _ (by simpa using hi)]
      simp
    · rw [getD_map_range _ _ _ hi]
      unfold computedNormal
      have hlen : (normalNeighbors points i).length < 2 := by
        unfold normalNeighbors
        rw [List.length_take]
        omega
      rw [if_neg (by omega)]
  · intro v hv
    unfold calculateVertexNormals at hv
    rw [if_neg hne] at hv
    split at hv
    · rw [List.mem_map] at hv
      obtain ⟨_, _, hveq⟩ := hv
      rw [← hveq]
      norm_num
    · rw [List.mem_map] at hv
      obtain ⟨i, _, hveq⟩ := hv
      rw [← hveq]
      show (0 : ℚ) ≤ (computedNormal points i).y
      simp only [computedNormal]
      split
      · split
        · rename_i hneg
          rw [Vec3.neg_y]
          linarith
        · rename_i hneg
          exact le_of_not_lt hneg
      · norm_num

/-- C8 witness: with no stored normals, `pts4` gets one normal per point, the
isolated point gets `(0, 1, 0)`, and the first recomputed normal has a
non-negative `y` component. -/
theorem C8_normal_estimator_witness :
    (calculateVertexNormals [] pts4).length = pts4.length ∧
      (calculateVertexNormals [] pts4).getD 3 default = ⟨0, 1, 0⟩ ∧
      0 ≤ ((calculateVertexNormals [] pts4).getD 0 default).y := by
  refine ⟨(C8_normal_estimator [] pts4).1, ?_, ?_⟩
  · exact ((C8_normal_estimator [] pts4).2 (by with_unfolding_all decide)).1 3
      (by with_unfolding_all decide) (by with_unfolding_all decide)
  · refine ((C8_normal_estimator [] pts4).2 (by with_unfolding_all decide)).2 _ ?_
    apply getD_mem
    rw [(C8_normal_estimator [] pts4).1]
    with_unfolding_all decide

/-- C3: on degenerate inputs of fewer than 3 points the raycast variant of
`generateFeaturePointScanData` returns all input points as vertices with an
empty face list, as the spec demands; the feature-point variant, which lacks
the small-count guard, builds the invalid Swift range
`stride..<min(count - 2*stride, 1000)` and traps (modelled as `none`) on
1- and 2-point clouds instead of returning the degenerate mesh. -/
theorem C3_small_input_scan_data :
    generateFeaturePointScanData [] = ⟨[], []⟩ ∧
      generateFeaturePointScanData [⟨0, 0, 0⟩] = ⟨[⟨0, 0, 0⟩], []⟩ ∧
      generateFeaturePointScanData [⟨0, 0, 0⟩, ⟨1, 0, 0⟩]
        = ⟨[⟨0, 0, 0⟩, ⟨1, 0, 0⟩], []⟩ ∧
      generateFeaturePointScanDataIos [] = some ⟨[], []⟩ ∧
      generateFeaturePointScanDataIos [⟨0, 0, 0⟩] = none ∧
      generateFeaturePointScanDataIos [⟨0, 0, 0⟩, ⟨1, 0, 0⟩] = none := by
  refine ⟨?_, ?_, ?_, ?_, ?_, ?_⟩ <;> with_unfolding_all decide

theorem Vec3.add_swap (a b c : Vec3) : a + b + c = a + c + b := by
  rw [Vec3.eq_iff]
  refine ⟨?_, ?_, ?_⟩ <;> simp only [Vec3.add_x, Vec3.add_y, Vec3.add_z] <;> ring

theorem mem_insertBy (le : α → α → Bool) (a b : α) (l : List α) :
    b ∈ insertBy le a l ↔ b = a ∨ b ∈ l := by
  induction l with
  | nil => simp [insertBy]
  | cons c cs ih =>
    by_cases h : le a c
    · simp only [insertBy, if_pos h, List.mem_cons]
    · simp only [insertBy, if_neg h, List.mem_cons, ih]
      tauto

theorem mem_sortBy (le : α → α → Bool) (a : α) (l : List α) :
    a ∈ sortBy le l ↔ a ∈ l := by
  induction l with
  | nil => simp [sortBy]
  | cons c cs ih => simp [sortBy, mem_insertBy, ih]

theorem mem_poseNeighbors_lt (points : List Vec3) (V : Vec3) (i a : ℕ)
    (h : a ∈ poseNeighbors points V i) : a < points.length := by
  unfold poseNeighbors at h
  rw [mem_sortBy, List.mem_filter] at h
  have h1 := h.1
  rwa [List.mem_range] at h1

theorem mem_simpleNearby_lt (points : List Vec3) (i : ℕ) (p : ℕ × ℚ)
    (h : p ∈ simpleNearby points i) : p.1 < points.length := by
  unfold simpleNearby at h
  rw [mem_sortBy, List.mem_filterMap] at h
  obtain ⟨j, hj, hp⟩ := h
  rw [List.mem_range'] at hj
  obtain ⟨d, hd, rfl⟩ := hj
  dsimp only [] at hp
  split at hp
  · cases hp
    simp only []
    omega
  · cases hp

theorem exists_candidate_of_mem_poseFaces (points : List Vec3) (V camPos : Vec3)
    (f : Face) (h : f ∈ poseFacesUncapped points V camPos) :
    ∃ i a b, i < points.length ∧ a < points.length ∧ b < points.length ∧
      poseCandidate points V camPos i a b = some f := by
  simp only [poseFacesUncapped, List.mem_flatMap, List.mem_filterMap,
    List.mem_range, List.mem_range'] at h
  obtain ⟨i, hi, j, hj, k, ⟨d, hd, hk⟩, hcand⟩ := h
  refine ⟨i, (poseNeighbors points V i).getD j 0, (poseNeighbors points V i).getD k 0,
    hi, ?_, ?_, hcand⟩
  · exact mem_poseNeighbors_lt points V i _ (getD_mem _ _ _ (by omega))
  · exact mem_poseNeighbors_lt points V i _ (getD_mem _ _ _ (by omega))

theorem poseCandidate_spec (points : List Vec3) (V camPos : Vec3) (i a b : ℕ)
    (f : Face) (h : poseCandidate points V camPos i a b = some f) :
    (f.1 = i ∧ ((f.2.1 = a ∧ f.2.2 = b) ∨ (f.2.1 = b ∧ f.2.2 = a))) ∧
      (sqDist (points.getD f.1 default) (points.getD f.2.1 default)
          < maxEdgeLength3D * maxEdgeLength3D ∧
        sqDist (points.getD f.2.1 default) (points.getD f.2.2 default)
          < maxEdgeLength3D * maxEdgeLength3D ∧
        sqDist (points.getD f.2.2 default) (points.getD f.1 default)
          < maxEdgeLength3D * maxEdgeLength3D) ∧
      (4/10000 : ℚ) * (4/10000) < Vec3.sqNorm (Vec3.cross
        (points.getD f.2.1 default - points.getD f.1 default)
        (points.getD f.2.2 default - points.getD f.1 default)) ∧
      0 ≤ Vec3.dot (Vec3.cross
          (points.getD f.2.1 default - points.getD f.1 default)
          (points.getD f.2.2 default - points.getD f.1 default))
        (camPos - Vec3.smul (1/3) (points.getD f.1 default
          + points.getD f.2.1 default + points.getD f.2.2 default)) := by
  simp only [poseCandidate] at h
  split at h
  case isFalse => cases h
  case isTrue hguard =>
    obtain ⟨h2d, he12, he23, he31⟩ := hguard
    split at h
    case isFalse => cases h
    case isTrue harea =>
      split at h
      case isTrue hfacing =>
        cases h
        refine ⟨⟨rfl, Or.inl ⟨rfl, rfl⟩⟩, ⟨he12, he23, he31⟩, harea, le_of_lt hfacing⟩
      case isFalse hfacing =>
        cases h
        refine ⟨⟨rfl, Or.inr ⟨rfl, rfl⟩⟩,
          ⟨by rwa [sqDist_comm], by rwa [sqDist_comm], by rwa [sqDist_comm]⟩, ?_, ?_⟩
        · rw [Vec3.cross_anticomm, Vec3.sqNorm_neg]
          exact harea
        · rw [Vec3.cross_anticomm, Vec3.dot_neg_left, Vec3.add_swap]
          linarith [le_of_not_lt hfacing]

theorem simple_faces_in_range (points : List Vec3) (f : Face)
    (h : f ∈ generateSimpleTriangulation points) : faceInRange points.length f := by
  simp only [generateSimpleTriangulation, List.mem_flatMap, List.mem_filterMap,
    List.mem_range, List.mem_range'] at h
  obtain ⟨i, hi, j, hj, k, ⟨d, hd, hk⟩, hcand⟩ := h
  have ha : ((simpleNearby points i).getD j (0, 0)).1 < points.length :=
    mem_simpleNearby_lt points i _ (getD_mem _ _ _ (by omega))
  have hb : ((simpleNearby points i).getD k (0, 0)).1 < points.length :=
    mem_simpleNearby_lt points i _ (getD_mem _ _ _ (by omega))
  simp only [simpleCandidate] at hcand
  split at hcand
  · split at hcand
    · cases hcand
      exact ⟨by omega, ha, hb⟩
    · cases hcand
  · cases hcand

theorem pose_faces_in_range (points : List Vec3) (tfs : List CameraTransform)
    (f : Face) (h : f ∈ generateMeshFromPoints points tfs) :
    faceInRange points.length f := by
  simp only [generateMeshFromPoints] at h
  split at h
  · cases h
  · split at h
    · exact simple_faces_in_range points f h
    · split at h
      · cases h
      · have hmem := List.mem_of_mem_take h
        obtain ⟨i, a, b, hi, ha, hb, hcand⟩ :=
          exists_candidate_of_mem_poseFaces _ _ _ _ hmem
        obtain ⟨⟨h1, h2⟩, _, _, _⟩ := poseCandidate_spec _ _ _ _ _ _ _ hcand
        rcases h2 with ⟨h21, h22⟩ | ⟨h21, h22⟩ <;>
          exact ⟨by omega, by omega, by omega⟩

/-- C2: every face triple emitted by any of the triangulators — the
pose-aware mode and pose-less fallback dispatch of `generateMeshFromPoints`,
`generateSimpleTriangulation` itself, and the stride-based simple
triangulations of both `generateFeaturePointScanData` variants — has all
three indices strictly below the vertex count of the produced mesh (whose
vertex list is the input point list). -/
theorem C2_face_index_validity :
    (∀ (points : List Vec3) (tfs : List CameraTransform) (f : Face),
        f ∈ generateMeshFromPoints points tfs → faceInRange points.length f) ∧
      (∀ (points : List Vec3) (f : Face),
        f ∈ generateSimpleTriangulation points → faceInRange points.length f) ∧
      (∀ (points : List Vec3) (f : Face),
        f ∈ (generateFeaturePointScanData points).faces →
          faceInRange (generateFeaturePointScanData points).vertices.length f) ∧
      (∀ (points : List Vec3) (mesh : Mesh),
        generateFeaturePointScanDataIos points = some mesh →
          ∀ f ∈ mesh.faces, faceInRange mesh.vertices.length f) := by
  refine ⟨pose_faces_in_range, simple_faces_in_range, ?_, ?_⟩
  · intro points f h
    have hv : (generateFeaturePointScanData points).vertices.length = points.length := by
      simp only [generateFeaturePointScanData]
      split
      case isTrue hemp =>
        rw [List.isEmpty_iff] at hemp
        simp [hemp]
      case isFalse =>
        split
        · rfl
        · rfl
    rw [hv]
    simp only [generateFeaturePointScanData] at h
    split at h
    · cases h
    · split at h
      · cases h
      · dsimp only [] at h
        split at h
        case isTrue hub =>
          simp only [List.mem_filterMap] at h
          obtain ⟨i, hi, hf⟩ := h
          split at hf
          case isTrue hlt =>
            cases hf
            dsimp only [faceInRange]
            exact ⟨by omega, by omega, by omega⟩
          case isFalse => cases hf
        case isFalse => cases h
  · intro points mesh h f hf
    simp only [generateFeaturePointScanDataIos] at h
    split at h
    case isTrue hemp =>
      cases h
      cases hf
    case isFalse hemp =>
      split at h
      case isTrue => cases h
      case isFalse hlow =>
        cases h
        simp only [List.mem_map, List.mem_filter, List.mem_range'] at hf
        obtain ⟨i, ⟨⟨d, hd, hi⟩, hmod⟩, hf⟩ := hf
        rw [← hf]
        show faceInRange points.length _
        unfold faceInRange
        dsimp only []
        have hle : (min ((points.length : ℤ) - 2 * (max 1 (points.length / 1000) : ℕ)) 1000)
            ≤ (points.length : ℤ) - 2 * (max 1 (points.length / 1000) : ℕ) := min_le_left _ _
        omega

/-- C2 witness: the fallback triangulation of the concrete right triangle
`tri3` emits the face `(0, 1, 2)`, whose indices address the three
vertices. -/
theorem C2_face_index_validity_witness :
    ((0, 1, 2) : Face) ∈ generateSimpleTriangulation tri3 ∧
      faceInRange tri3.length ((0, 1, 2) : Face) := by
  have hm : ((0, 1, 2) : Face) ∈ generateSimpleTriangulation tri3 := by
    with_unfolding_all decide
  exact ⟨hm, C2_face_index_validity.2.1 tri3 (0, 1, 2) hm⟩

/-- C6: in the pose-aware mode (one camera transform per point, at least 3
points), every emitted face satisfies the orientation invariant: the dot
product of its face normal — the cross product of the edge vectors in the
emitted winding order — with the vector from the triangle centroid to the
average camera position is non-negative (the accepted winding has a strictly
positive dot product; the flipped winding negates a non-positive one). -/
theorem C6_face_orientation (points : List Vec3) (tfs : List CameraTransform)
    (f : Face) (h3 : 3 ≤ points.length) (hmode : tfs.length = points.length)
    (h : f ∈ generateMeshFromPoints points tfs) :
    0 ≤ Vec3.dot
      (Vec3.cross (points.getD f.2.1 default - points.getD f.1 default)
        (points.getD f.2.2 default - points.getD f.1 default))
      (avgCameraPos tfs - Vec3.smul (1/3) (points.getD f.1 default
        + points.getD f.2.1 default + points.getD f.2.2 default)) := by
  simp only [generateMeshFromPoints] at h
  rw [if_neg (by omega), if_neg (by omega)] at h
  split at h
  · cases h
  · have hmem := List.mem_of_mem_take h
    obtain ⟨i, a, b, hi, ha, hb, hcand⟩ :=
      exists_candidate_of_mem_poseFaces _ _ _ _ hmem
    exact (poseCandidate_spec _ _ _ _ _ _ _ hcand).2.2.2

/-- C6 witness: the pose-aware run on the concrete right triangle `tri3`
with three identical transforms emits the flipped face `(1, 2, 0)`, and the
orientation dot product at that face is non-negative. -/
theorem C6_face_orientation_witness :
    ((1, 2, 0) : Face) ∈ generateMeshFromPoints tri3 tfs3 ∧
      0 ≤ Vec3.dot
        (Vec3.cross (tri3.getD 2 default - tri3.getD 1 default)
          (tri3.getD 0 default - tri3.getD 1 default))
        (avgCameraPos tfs3 - Vec3.smul (1/3) (tri3.getD 1 default
          + tri3.getD 2 default + tri3.getD 0 default)) := by
  have hm : ((1, 2, 0) : Face) ∈ generateMeshFromPoints tri3 tfs3 := by
    with_unfolding_all decide
  exact ⟨hm, C6_face_orientation tri3 tfs3 (1, 2, 0)
    (by with_unfolding_all decide) (by with_unfolding_all decide) hm⟩

/-- C7: in the pose-aware mode (one camera transform per point, at least 3
points), every emitted face has all three pairwise squared 3D edge lengths
strictly below `0.15²` (equivalently, edge lengths strictly below 0.15), a
squared cross-product norm strictly above `(2·0.0002)²` (equivalently, a 3D
triangle area `‖cross‖/2` strictly above 0.0002), and the total number of
emitted faces never exceeds `4 ×` the number of input points. -/
theorem C7_pose_face_quality (points : List Vec3) (tfs : List CameraTransform)
    (h3 : 3 ≤ points.length) (hmode : tfs.length = points.length) :
    (∀ f ∈ generateMeshFromPoints points tfs,
        (sqDist (points.getD f.1 default) (points.getD f.2.1 default)
            < maxEdgeLength3D * maxEdgeLength3D ∧
          sqDist (points.getD f.2.1 default) (points.getD f.2.2 default)
            < maxEdgeLength3D * maxEdgeLength3D ∧
          sqDist (points.getD f.2.2 default) (points.getD f.1 default)
            < maxEdgeLength3D * maxEdgeLength3D) ∧
        (4/10000 : ℚ) * (4/10000) < Vec3.sqNorm (Vec3.cross
          (points.getD f.2.1 default - points.getD f.1 default)
          (points.getD f.2.2 default - points.getD f.1 default))) ∧
      (generateMeshFromPoints points tfs).length ≤ points.length * 4 := by
  constructor
  · intro f h
    simp only [generateMeshFromPoints] at h
    rw [if_neg (by omega), if_neg (by omega)] at h
    split at h
    · cases h
    · have hmem := List.mem_of_mem_take h
      obtain ⟨i, a, b, hi, ha, hb, hcand⟩ :=
        exists_candidate_of_mem_poseFaces _ _ _ _ hmem
      have hspec := poseCandidate_spec _ _ _ _ _ _ _ hcand
      exact ⟨hspec.2.1, hspec.2.2.1⟩
  · simp only [generateMeshFromPoints]
    rw [if_neg (by omega), if_neg (by omega)]
    split
    · simp
    · calc ((poseFacesUncapped points (viewDirSum tfs) (avgCameraPos tfs)).take
            (points.length * 4)).length
          ≤ points.length * 4 := by
            rw [List.length_take]
            omega

/-- C7 witness: the pose-aware run on `tri3` with `tfs3` emits the face
`(0, 1, 2)` with edges below the cap, area above the floor, and at most
`4 × 3` faces in total. -/
theorem C7_pose_face_quality_witness :
    ((0, 1, 2) : Face) ∈ generateMeshFromPoints tri3 tfs3 ∧
      ((sqDist (tri3.getD 0 default) (tri3.getD 1 default)
          < maxEdgeLength3D * maxEdgeLength3D ∧
        sqDist (tri3.getD 1 default) (tri3.getD 2 default)
          < maxEdgeLength3D * maxEdgeLength3D ∧
        sqDist (tri3.getD 2 default) (tri3.getD 0 default)
          < maxEdgeLength3D * maxEdgeLength3D) ∧
      (4/10000 : ℚ) * (4/10000) < Vec3.sqNorm (Vec3.cross
        (tri3.getD 1 default - tri3.getD 0 default)
        (tri3.getD 2 default - tri3.getD 0 default))) ∧
      (generateMeshFromPoints tri3 tfs3).length ≤ tri3.length * 4 := by
  have h := C7_pose_face_quality tri3 tfs3
    (by with_unfolding_all decide) (by with_unfolding_all decide)
  have hm : ((0, 1, 2) : Face) ∈ generateMeshFromPoints tri3 tfs3 := by
    with_unfolding_all decide
  exact ⟨hm, h.1 (0, 1, 2) hm, h.2⟩

theorem length_filter_add_length_filter_not (p : α → Bool) (l : List α) :
    (l.filter p).length + (l.filter (fun x => !p x)).length = l.length := by
  induction l with
  | nil => simp
  | cons a t ih =>
    by_cases h : p a = true <;> simp [List.filter_cons, h] <;> omega

theorem innerFloodFill_unprocessed_le (d : ℚ) (fuel : ℕ) (c t u : List Vec3) :
    (innerFloodFill d fuel c t u).2.length ≤ u.length := by
  induction fuel generalizing c t u with
  | zero => simp [innerFloodFill]
  | succ n ih =>
    cases t with
    | nil => simp [innerFloodFill]
    | cons point rest =>
      simp only [innerFloodFill]
      split
      · exact List.length_filter_le _ _
      · exact le_trans (ih _ _ _) (List.length_filter_le _ _)

theorem innerFloodFill_fuel_irrelevant (d : ℚ) (n m : ℕ) (c t u : List Vec3)
    (hn : t.length + u.length ≤ n) (hm : t.length + u.length ≤ m) :
    innerFloodFill d n c t u = innerFloodFill d m c t u := by
  induction n generalizing m c t u with
  | zero =>
    have ht : t = [] := by
      cases t
      · rfl
      · simp at hn
    subst ht
    cases m with
    | zero => rfl
    | succ m2 => simp [innerFloodFill]
  | succ n ih =>
    cases t with
    | nil =>
      cases m with
      | zero => simp [innerFloodFill]
      | succ m2 => simp [innerFloodFill]
    | cons point rest =>
      cases m with
      | zero => simp at hm
      | succ m2 =>
        simp only [innerFloodFill]
        split
        · rfl
        · apply ih
          · have := length_filter_add_length_filter_not
              (fun p => decide (sqDist point p < d * d)) u
            simp only [List.length_append, List.length_cons] at hn ⊢
            omega
          · have := length_filter_add_length_filter_not
              (fun p => decide (sqDist point p < d * d)) u
            simp only [List.length_append, List.length_cons] at hm ⊢
            omega

theorem outerClusters_fuel_irrelevant (d : ℚ) (n m : ℕ) (cl : List (List Vec3))
    (u : List Vec3) (hn : u.length ≤ n) (hm : u.length ≤ m) :
    outerClusters d n cl u = outerClusters d m cl u := by
  induction n generalizing m cl u with
  | zero =>
    have hu : u = [] := by
      cases u
      · rfl
      · simp at hn
    subst hu
    cases m with
    | zero => rfl
    | succ m2 => simp [outerClusters]
  | succ n ih =>
    cases u with
    | nil =>
      cases m with
      | zero => simp [outerClusters]
      | succ m2 => simp [outerClusters]
    | cons first rest =>
      cases m with
      | zero => simp at hm
      | succ m2 =>
        simp only [outerClusters]
        by_cases h5 : 5 ≤ (if 50 < (innerFloodFill d (1 + rest.length) [] [first] rest).1.length
            then cl ++ [(innerFloodFill d (1 + rest.length) [] [first] rest).1] else cl).length
        · simp only [if_pos h5]
        · simp only [if_neg h5]
          apply ih
          · have := innerFloodFill_unprocessed_le d (1 + rest.length) [] [first] rest
            simp only [List.length_cons] at hn
            omega
          · have := innerFloodFill_unprocessed_le d (1 + rest.length) [] [first] rest
            simp only [List.length_cons] at hm
            omega

theorem outerClusters_min_size (d : ℚ) (fuel : ℕ) (cl : List (List Vec3))
    (u : List Vec3) (hcl : ∀ c ∈ cl, 50 < c.length) :
    ∀ c ∈ outerClusters d fuel cl u, 50 < c.length := by
  induction fuel generalizing cl u with
  | zero =>
    simpa [outerClusters] using hcl
  | succ n ih =>
    cases u with
    | nil => simpa [outerClusters] using hcl
    | cons first rest =>
      simp only [outerClusters]
      by_cases h50 : 50 < (innerFloodFill d (1 + rest.length) [] [first] rest).1.length
      · rw [if_pos h50]
        have hcl2 : ∀ c ∈ cl ++ [(innerFloodFill d (1 + rest.length) [] [first] rest).1],
            50 < c.length := by
          intro c hc
          rcases List.mem_append.mp hc with h | h
          · exact hcl c h
          · rw [List.mem_singleton] at h
            rw [h]
            exact h50
        split
        · exact hcl2
        · exact ih _ _ hcl2
      · rw [if_neg h50]
        split
        · exact hcl
        · exact ih _ _ hcl

/-- C10: every cluster returned by the flood-fill clustering step
`clusterPoints` has strictly more than 50 points, so the downstream
classifier (whose own gate only requires 30) never receives a cluster of 30
to 50 points. -/
theorem C10_cluster_min_size (points : List Vec3) (maxDistance : ℚ) :
    ∀ c ∈ clusterPoints points maxDistance, 50 < c.length := by
  unfold clusterPoints
  exact outerClusters_min_size maxDistance points.length [] points (by simp)

/-- C10 witness: 51 coincident points flood-fill into the single cluster
`dense51`, which has more than 50 points. -/
theorem C10_cluster_min_size_witness :
    dense51 ∈ clusterPoints dense51 (3/10) ∧ 50 < dense51.length := by
  have hm : dense51 ∈ clusterPoints dense51 (3/10) := by
    with_unfolding_all decide
  exact ⟨hm, C10_cluster_min_size dense51 (3/10) dense51 hm⟩

/-- C9 counterexample: `boundary30` has 30 points and a bounding box with
width exactly 0.2 and depth 0.5 — inside the claim's closed interval
`[0.2, 3.0]` — yet `analyzeClusterForShape` returns no classification,
because the code's size gate is strict (`width > 0.2`), not closed. -/
theorem C9_boundary_counterexample :
    30 ≤ boundary30.length ∧
      1/5 ≤ clusterWidth boundary30 ∧ clusterWidth boundary30 ≤ 3 ∧
      1/5 ≤ clusterDepth boundary30 ∧ clusterDepth boundary30 ≤ 3 ∧
      analyzeClusterForShape boundary30 = none := by
  refine ⟨?_, ?_, ?_, ?_, ?_, ?_⟩ <;> with_unfolding_all decide

/-- C9 (amended): for every cluster of at least 30 points whose bounding-box
width and depth lie strictly inside `(0.2, 3.0)` (open interval, matching
the code's strict gates), the classifier returns Circle exactly when the
coefficient of variation of the horizontal distances from the box center is
below 0.25 and the aspect is below 1.3, and returns Rectangle in every
other case; clusters failing the point-count gate or the (strict) size gate
yield no classification. -/
theorem C9_shape_classification_amended (cluster : List Vec3) :
    (30 ≤ cluster.length →
      (1/5 < clusterWidth cluster ∧ clusterWidth cluster < 3 ∧
        1/5 < clusterDepth cluster ∧ clusterDepth cluster < 3) →
      ((analyzeClusterForShape cluster
          = some ("CIRCLE", bboxMin cluster, bboxMax cluster))
        ↔ (circularityOf cluster < (1/4 : ℝ) ∧ aspectOf cluster < 13/10)) ∧
      (¬(circularityOf cluster < (1/4 : ℝ) ∧ aspectOf cluster < 13/10) →
        analyzeClusterForShape cluster
          = some ("RECTANGLE", bboxMin cluster, bboxMax cluster))) ∧
    ((cluster.length < 30 ∨
        ¬(1/5 < clusterWidth cluster ∧ clusterWidth cluster < 3 ∧
          1/5 < clusterDepth cluster ∧ clusterDepth cluster < 3)) →
      analyzeClusterForShape cluster = none) := by
  constructor
  · intro h30 hgate
    unfold analyzeClusterForShape
    rw [if_neg (by omega), if_pos hgate]
    by_cases hc : circularityOf cluster < (1/4 : ℝ) ∧ aspectOf cluster < 13/10
    · rw [if_pos hc]
      exact ⟨⟨fun _ => hc, fun _ => rfl⟩, fun hnc => absurd hc hnc⟩
    · rw [if_neg hc]
      have hrect : (if aspectOf cluster < 2 then
            some ("RECTANGLE", bboxMin cluster, bboxMax cluster)
          else if 2 ≤ aspectOf cluster then
            some ("RECTANGLE", bboxMin cluster, bboxMax cluster)
          else none)
          = some ("RECTANGLE", bboxMin cluster, bboxMax cluster) := by
        by_cases ha : aspectOf cluster < 2
        · rw [if_pos ha]
        · rw [if_neg ha, if_pos (le_of_not_lt ha)]
      rw [hrect]
      refine ⟨⟨fun heq => ?_, fun h => absurd h hc⟩, fun _ => rfl⟩
      exfalso
      have : ("RECTANGLE" : String) = "CIRCLE" := by
        have h2 := Option.some.inj heq
        exact congrArg Prod.fst h2
      exact absurd this (by decide)
  · intro h
    unfold analyzeClusterForShape
    by_cases h30 : cluster.length < 30
    · rw [if_pos h30]
    · rcases h with h1 | hgate
      · exact absurd h1 h30
      · rw [if_neg h30, if_neg hgate]

/-- C9 witness: the 30-point rational circle `circle30` passes both gates
and classifies as a circle (all its center distances are exactly 1/2, so
the coefficient of variation is 0). -/
theorem C9_shape_classification_amended_witness :
    30 ≤ circle30.length ∧
      (1/5 < clusterWidth circle30 ∧ clusterWidth circle30 < 3 ∧
        1/5 < clusterDepth circle30 ∧ clusterDepth circle30 < 3) ∧
      analyzeClusterForShape circle30
        = some ("CIRCLE", bboxMin circle30, bboxMax circle30) := by
  have h30 : 30 ≤ circle30.length := by with_unfolding_all decide
  have hg : 1/5 < clusterWidth circle30 ∧ clusterWidth circle30 < 3 ∧
      1/5 < clusterDepth circle30 ∧ clusterDepth circle30 < 3 := by
    with_unfolding_all decide
  refine ⟨h30, hg, ?_⟩
  apply ((C9_shape_classification_amended circle30).1 h30 hg).1.mpr
  have hq : ∀ p ∈ circle30,
      ((p.x - (clusterCenter circle30).x) * (p.x - (clusterCenter circle30).x)
        + (p.z - (clusterCenter circle30).z) * (p.z - (clusterCenter circle30).z) : ℚ)
        = 1/4 := by
    with_unfolding_all decide
  have hlen : circle30.length = 30 := by with_unfolding_all decide
  have hdist : clusterDistances circle30 = List.replicate 30 ((1/2 : ℝ)) := by
    apply List.eq_replicate_iff.mpr
    constructor
    · rw [clusterDistances, List.length_map, hlen]
    · intro b hb
      rw [clusterDistances, List.mem_map] at hb
      obtain ⟨p, hp, hb⟩ := hb
      rw [← hb, hq p hp]
      rw [show (((1 : ℚ)/4 : ℚ) : ℝ) = (1/2 : ℝ) ^ 2 by push_cast; norm_num]
      exact Real.sqrt_sq (by norm_num)
  have havg : avgDistance circle30 = 1/2 := by
    unfold avgDistance
    rw [hdist]
    rw [List.sum_replicate, List.length_replicate]
    simp [nsmul_eq_mul]
  have hvar : clusterVariance circle30 = 0 := by
    unfold clusterVariance
    rw [hdist, havg, List.map_replicate]
    norm_num
  have hcirc : circularityOf circle30 = 0 := by
    unfold circularityOf
    rw [hvar, havg, Real.sqrt_zero]
    norm_num
  constructor
  · rw [hcirc]
    norm_num
  · with_unfolding_all decide
